import Mathlib

/-!
Verification of the pico-flare agent execution core: the iterative tool-calling
loop (`ProcessMessage` in pkg/agent), the subagent delegation subsystem
(`RunSubagentLoop`, `BuildSubagentTools` in pkg/agent/subagent.go), tool dispatch
(`ExecuteTool`), and session/context management (`trimSession`, the system-prompt
refresh).  The Go code is shallowly embedded: the LLM oracle becomes a decision
sequence (call index to transport error or decision), tool handlers become pure
functions, durations become integers (nanoseconds), and filesystem paths become
segment lists.
-/

namespace PicoFlare

/-- llm.ToolCall: the oracle's request to invoke a tool.  Go fields are ID, Type
and Function with Name and Arguments; Type is the constant "function" and is never
read by the loop, so the record is flattened to id, name, arguments. -/
structure ToolCall where
  id : String
  name : String
  arguments : String
deriving DecidableEq, Repr

/-- llm.Message: one transcript entry.  Go zero values of the omitted-when-empty
fields are the defaults here. -/
structure Message where
  role : String
  content : String
  toolCalls : List ToolCall := []
  toolCallID : String := ""
  name : String := ""
deriving DecidableEq, Repr

/-- llm.ChatResult: the oracle's decision for one call (FinishReason is never read
by the loops and is omitted). -/
structure ChatResult where
  content : String
  toolCalls : List ToolCall
deriving DecidableEq, Repr

/-- An oracle decision sequence: the i-th LLM call either fails with a transport
error or returns a decision.  The loops treat the LLM as this black box. -/
def Oracle : Type := Nat → Except String ChatResult

/-- A dispatcher: (tool name, raw JSON argument string) to result text or error.
In the program this is ExecuteTool applied to a registry; the loops only see this
interface. -/
def Dispatch : Type := String → String → Except String String

/-- Decoded tool arguments: the Go map resulting from json.Unmarshal of the
argument string; values are abstracted to strings. -/
def ArgMap : Type := List (String × String)

/-- agent.Tool: name, handler, and (for the Code Mode tools) the workspace root
the handler closes over.  Description and the JSON parameter schema are prompts
for the oracle and are never read by dispatch, so they are omitted; `root` makes
the captured workspace of BuildCodeModeTools closures visible to the model. -/
structure MTool where
  name : String
  root : Option (List String) := none
  exec : ArgMap → Except String String

/-- agent.ExecuteTool (subagent.go lines 1741-1759): find the first tool with the
requested name, normalize an empty argument string to "\x7b\x7d", decode the
arguments (kept as the parameter `decode`, standing for json.Unmarshal), and run
the handler.  Errors: "unknown tool: <name>" when no tool matches, "parse tool
args: <e>" when decoding fails, and the handler's own error otherwise. -/
def ExecuteTool (decode : String → Except String ArgMap) (tools : List MTool)
    (name argsJSON : String) : Except String String :=
  match tools.find? (fun t => t.name == name) with
  | some t =>
    match decode (if argsJSON = "" then "\x7b\x7d" else argsJSON) with
    | .error e => .error ("parse tool args: " ++ e)
    | .ok args => t.exec args
  | none => .error ("unknown tool: " ++ name)

/-- A system-role message as built at session creation and refresh. -/
def mkSystem (content : String) : Message :=
  { role := "system", content := content }

/-- A user-role message as appended by ProcessMessage line 361. -/
def mkUser (content : String) : Message :=
  { role := "user", content := content }

/-- The assistant message appended when the oracle returns a final answer
(ProcessMessage line 401). -/
def mkAssistantFinal (content : String) : Message :=
  { role := "assistant", content := content }

/-- The assistant message carrying tool-call requests (ProcessMessage lines
407-411, RunSubagentLoop lines 192-196). -/
def mkAssistantCalls (content : String) (tcs : List ToolCall) : Message :=
  { role := "assistant", content := content, toolCalls := tcs }

/-- The tool-result message recorded for one tool call (ProcessMessage lines
424-440, RunSubagentLoop lines 200-214): a dispatch or handler error becomes the
result text "Error: <e>", and the correlation id is the request's id. -/
def toolResultMsg (doTool : Dispatch) (tc : ToolCall) : Message :=
  { role := "tool",
    content := match doTool tc.name tc.arguments with
               | .ok r => r
               | .error e => "Error: " ++ e,
    toolCallID := tc.id,
    name := tc.name }

/-- The tool-result messages for one oracle turn, in the order the oracle
returned the requests (the Go for-loop over result.ToolCalls). -/
def toolResultMsgs (doTool : Dispatch) (tcs : List ToolCall) : List Message :=
  tcs.map (toolResultMsg doTool)

/-- maxIterations (math.go line 164). -/
def maxIterations : Nat := 24

/-- The fallback reply when the iteration cap is reached (ProcessMessage lines
443-448): the oracle's last textual content if non-empty, else the limit note. -/
def limitReachedReply (content : String) : String :=
  if content = "" then "(Reached iteration limit — I may need to continue)" else content

/-- Outcome of the top-level loop: the returned reply, the session transcript
after the loop, the number of oracle calls made, and whether the loop ended
normally (ok = false is the fatal LLM-transport-error path of lines 387-390). -/
structure RunResult where
  reply : String
  messages : List Message
  oracleCalls : Nat
  ok : Bool
deriving Repr

/-- The iteration loop of ProcessMessage (lines 373-449).  `fuel` is the number
of remaining iterations, `i` the index of the next oracle call, `lastContent` the
running value of the Go finalReply source: when fuel runs out the reply is
limitReachedReply of the content of the last oracle call, exactly as lines
443-448 compute it inside the final iteration. -/
def agentLoopAux (oracle : Oracle) (doTool : Dispatch) :
    Nat → Nat → List Message → String → RunResult
  | 0, i, msgs, lastContent =>
    { reply := limitReachedReply lastContent, messages := msgs, oracleCalls := i, ok := true }
  | fuel + 1, i, msgs, _ =>
    match oracle i with
    | .error e =>
      { reply := "Error: " ++ e, messages := msgs, oracleCalls := i + 1, ok := false }
    | .ok r =>
      if r.toolCalls = [] then
        { reply := r.content, messages := msgs ++ [mkAssistantFinal r.content],
          oracleCalls := i + 1, ok := true }
      else
        agentLoopAux oracle doTool fuel (i + 1)
          (msgs ++ mkAssistantCalls r.content r.toolCalls :: toolResultMsgs doTool r.toolCalls)
          r.content

/-- The top-level loop started on a transcript (ProcessMessage after the session
bookkeeping): maxIterations iterations from call index 0. -/
def agentLoop (oracle : Oracle) (doTool : Dispatch) (msgs : List Message) : RunResult :=
  agentLoopAux oracle doTool maxIterations 0 msgs ""

/-- subagentMaxIterations (subagent.go line 102). -/
def subagentMaxIterations : Nat := 20

/-- The fixed reply of RunSubagentLoop when its iteration cap is reached
(subagent.go line 218). -/
def subagentLimitMsg : String := "(Subagent reached iteration limit)"

/-- Outcome of the nested subagent loop: the returned result (error for the
LLM-transport failure of lines 184-186), the local transcript, and the number of
oracle calls made. -/
structure SubRun where
  result : Except String String
  messages : List Message
  oracleCalls : Nat

/-- The iteration loop of RunSubagentLoop (lines 176-218).  On a final answer it
returns the trimmed content without appending an assistant message; when fuel
runs out it returns the fixed limit message of line 218, ignoring any partial
content of the last call. -/
def subagentLoopAux (oracle : Oracle) (doTool : Dispatch) :
    Nat → Nat → List Message → SubRun
  | 0, i, msgs =>
    { result := .ok subagentLimitMsg, messages := msgs, oracleCalls := i }
  | fuel + 1, i, msgs =>
    match oracle i with
    | .error e =>
      { result := .error ("subagent LLM error: " ++ e), messages := msgs, oracleCalls := i + 1 }
    | .ok r =>
      if r.toolCalls = [] then
        { result := .ok r.content.trim, messages := msgs, oracleCalls := i + 1 }
      else
        subagentLoopAux oracle doTool fuel (i + 1)
          (msgs ++ mkAssistantCalls r.content r.toolCalls :: toolResultMsgs doTool r.toolCalls)

/-- Lexical cleaning of an absolute path given as segments, the stack-based core
of filepath.Clean on an absolute path: "." and empty segments vanish, ".."
removes the previous segment and is dropped at the root. -/
def cleanAbsAux : List String → List String → List String
  | acc, [] => acc.reverse
  | acc, s :: rest =>
    if s = "." ∨ s = "" then cleanAbsAux acc rest
    else if s = ".." then cleanAbsAux (acc.drop 1) rest
    else cleanAbsAux (s :: acc) rest

/-- filepath.Clean of an absolute segment path. -/
def cleanAbs (p : List String) : List String := cleanAbsAux [] p

/-- Drop the longest common segment prefix of two paths, returning the two
remainders (the core of filepath.Rel on clean absolute paths). -/
def dropCommon : List String → List String → List String × List String
  | a :: as, b :: bs => if a = b then dropCommon as bs else (a :: as, b :: bs)
  | as, bs => (as, bs)

/-- filepath.Rel base targ as segments: one ".." per remaining base segment, then
the remaining target segments; the empty list stands for Go's ".". -/
def relSegments (base targ : List String) : List String :=
  let p := dropCommon base targ
  List.replicate p.1.length ".." ++ p.2

/-- Whether a string starts with the two characters "..", at the character
level. -/
def startsWithDotDot (s : String) : Bool :=
  match s.data with
  | c1 :: c2 :: _ => c1 == '.' && c2 == '.'
  | _ => false

/-- strings.HasPrefix(rel, "..") on the joined relative path (subagent.go line
115): since "/" cannot occur inside a segment, the joined string starts with the
two characters ".." exactly when the first segment does. -/
def relEscapes (base targ : List String) : Bool :=
  match relSegments base targ with
  | [] => false
  | s :: _ => startsWithDotDot s

/-- agent.resolveSubWorkspace (subagent.go lines 105-119) on segment paths.
`mainWs` stands for filepath.Abs(mainWorkspace), a clean absolute path; the empty
list encodes the empty string (workspace not configured; the filepath.Abs error
branch cannot fire in this lexical model).  subAbs is Clean(Join(mainAbs,
subPath)); the request is rejected when Rel(mainAbs, subAbs) starts with "..". -/
def resolveSubWorkspace (mainWs subPath : List String) : Except String (List String) :=
  if mainWs = [] then .error "main workspace not configured"
  else if relEscapes mainWs (cleanAbs (mainWs ++ subPath)) then
    .error ("workspace \"" ++ String.intercalate "/" subPath ++ "\" is outside main workspace")
  else .ok (cleanAbs (mainWs ++ subPath))

/-- One second in nanoseconds (Go time.Duration units). -/
def second : Int := 1000000000

/-- One minute in nanoseconds. -/
def minute : Int := 60 * second

/-- subagentSyncTimeoutDefault (subagent.go line 121): 3 minutes. -/
def subagentSyncTimeoutDefault : Int := 3 * minute

/-- subagentSyncTimeoutMax (subagent.go line 122): 10 minutes. -/
def subagentSyncTimeoutMax : Int := 10 * minute

/-- The timeout RunSubagentLoop actually applies to its context (lines 130-135):
the default replaces a non-positive request, then the result is capped at the
maximum. -/
def effectiveSyncTimeout (timeout : Int) : Int :=
  let t := if timeout ≤ 0 then subagentSyncTimeoutDefault else timeout
  if t > subagentSyncTimeoutMax then subagentSyncTimeoutMax else t

/-- workspaceToolNames (subagent.go lines 83-85): the Code Mode tools that are
re-scoped when a subagent runs in a sub-workspace. -/
def workspaceToolNames (n : String) : Bool :=
  n == "read_file" || n == "write_file" || n == "edit_file" || n == "list_files" || n == "shell"

/-- A stub handler for the Code Mode tools: their Go bodies perform file and
process I/O, which is external to this embedding; only the tool identity and the
captured workspace root are modelled. -/
def stubExec : ArgMap → Except String String := fun _ => .ok ""

/-- agent.BuildCodeModeTools (codemode.go line 34): the seven tools, in source
order, each closing over the given workspace root. -/
def buildCodeModeTools (ws : List String) : List MTool :=
  [ { name := "read_file", root := some ws, exec := stubExec },
    { name := "write_file", root := some ws, exec := stubExec },
    { name := "edit_file", root := some ws, exec := stubExec },
    { name := "list_files", root := some ws, exec := stubExec },
    { name := "shell", root := some ws, exec := stubExec },
    { name := "self_rebuild", root := some ws, exec := stubExec },
    { name := "create_skill", root := some ws, exec := stubExec } ]

/-- agent.BuildWorkspaceSubTools (codemode.go lines 325-334): the Code Mode tools
for a sub-workspace, excluding self_rebuild and create_skill. -/
def buildWorkspaceSubTools (ws : List String) : List MTool :=
  (buildCodeModeTools ws).filter (fun t => t.name != "self_rebuild" && t.name != "create_skill")

/-- The child tool set computed by RunSubagentLoop (subagent.go lines 138-161).
With a requested sub-workspace (and a configured main workspace) the delegation
tools spawn and subagent are skipped, the workspace-scoped tools are dropped, and
fresh workspace tools rooted at the validated sub-path are appended; otherwise
only spawn and subagent are removed.  A path-validation failure aborts before any
tool is assembled. -/
def childTools (tools : List MTool) (mainWs workspace : List String) :
    Except String (List MTool) :=
  if workspace ≠ [] ∧ mainWs ≠ [] then
    match resolveSubWorkspace mainWs workspace with
    | .error e => .error e
    | .ok subWs =>
      .ok ((tools.filter (fun t =>
              !(t.name == "spawn" || t.name == "subagent") && !workspaceToolNames t.name))
           ++ buildWorkspaceSubTools subWs)
  else
    .ok (tools.filter (fun t => t.name != "spawn" && t.name != "subagent"))

/-- The subagent system prompt (subagent.go lines 165-169). -/
def subagentSystemPrompt (workspace : List String) : String :=
  let base := "You are a subagent. Complete the given task independently using your tools.\nProvide a clear, concise summary of what you did. Be direct and efficient."
  if workspace ≠ [] then
    base ++ "\n\nYou are working in the folder: " ++ String.intercalate "/" workspace
      ++ " (paths are relative to this)."
  else base

/-- Outcome of RunSubagentLoop when it gets past path validation: the child tool
set it built and the nested loop's run. -/
structure SubOutcome where
  subTools : List MTool
  run : SubRun

/-- agent.RunSubagentLoop (subagent.go lines 128-219): validate the sub-workspace,
build the restricted child tool set, start a fresh two-message transcript, and
run the nested loop with dispatch over the child tools.  A validation failure
returns the error before any tool set or loop exists.  The timeout applied to the
context is modelled separately by effectiveSyncTimeout. -/
def runSubagentLoop (oracle : Oracle) (decode : String → Except String ArgMap)
    (tools : List MTool) (task : String) (mainWs workspace : List String) :
    Except String SubOutcome :=
  match childTools tools mainWs workspace with
  | .error e => .error e
  | .ok subTools =>
    .ok { subTools := subTools,
          run := subagentLoopAux oracle (ExecuteTool decode subTools)
                   subagentMaxIterations 0
                   [mkSystem (subagentSystemPrompt workspace), mkUser task] }

/-- maxSessionMessages (math.go line 603). -/
def maxSessionMessages : Nat := 50

/-- agent.trimSession (math.go lines 605-613): when the transcript exceeds
maxSessionMessages + 1 entries, keep the first message plus the
maxSessionMessages most recent ones. -/
def trimSession (msgs : List Message) : List Message :=
  if msgs.length ≤ maxSessionMessages + 1 then msgs
  else msgs.take 1 ++ msgs.drop (msgs.length - maxSessionMessages)

/-- Session creation (ProcessMessage lines 346-353): the transcript starts as the
single system-prompt message. -/
def freshSession (systemPrompt : String) : List Message := [mkSystem systemPrompt]

/-- The refresh trigger of ProcessMessage line 357: more than one message and the
message count divisible by 15. -/
def refreshDue (msgs : List Message) : Bool :=
  decide (1 < msgs.length ∧ msgs.length % 15 = 0)

/-- The system-prompt refresh of ProcessMessage lines 356-359: when due, position
0 is replaced in place by a freshly built system prompt. -/
def refreshSystemPrompt (promptNow : String) (msgs : List Message) : List Message :=
  if refreshDue msgs then msgs.set 0 (mkSystem promptNow) else msgs

/-- agent.ProcessMessage (math.go lines 336-460) for one user turn on an existing
session: refresh the system prompt if due, append the user message, trim, then
run the iteration loop.  `promptNow` is the value buildSystemPrompt returns on
this turn (its text depends on external collaborators and is left abstract);
session creation is freshSession at the call site. -/
def processTurn (oracle : Oracle) (doTool : Dispatch)
    (promptNow userText : String) (msgs : List Message) : RunResult :=
  agentLoop oracle doTool
    (trimSession (refreshSystemPrompt promptNow msgs ++ [mkUser userText]))

/-- One conversation turn of a multi-turn run: the prompt buildSystemPrompt would
produce, the user text, and the oracle decisions for this turn. -/
structure TurnSpec where
  promptNow : String
  userText : String
  oracle : Oracle

/-- A multi-turn conversation: thread the session transcript through successive
ProcessMessage turns. -/
def runTurns (doTool : Dispatch) : List TurnSpec → List Message → List Message
  | [], msgs => msgs
  | t :: rest, msgs =>
    runTurns doTool rest (processTurn t.oracle doTool t.promptNow t.userText msgs).messages

/-- Count how many turns of a multi-turn run replace the system prompt (the turns
whose transcript satisfies the line-357 trigger at turn start). -/
def countRefreshes (doTool : Dispatch) : List TurnSpec → List Message → Nat
  | [], _ => 0
  | t :: rest, msgs =>
    (if refreshDue msgs then 1 else 0)
      + countRefreshes doTool rest (processTurn t.oracle doTool t.promptNow t.userText msgs).messages

/-- The session invariant of the spec: the first transcript entry exists and has
the system role. -/
def headRoleSystem (msgs : List Message) : Prop :=
  msgs.head?.map Message.role = some "system"

/-- An oracle that on every call returns a decision with at least one tool-call
request and never a final answer. -/
def alwaysTools (oracle : Oracle) : Prop :=
  ∀ i, ∃ r, oracle i = .ok r ∧ r.toolCalls ≠ []

/-- The spawn tool's default background timeout (subagent.go line 314): 5
minutes. -/
def spawnDefaultTimeout : Int := 5 * minute

/-- The timeout the spawn tool applies to its background context (subagent.go
lines 314-320): the default unless a positive number of seconds was requested, in
which case that duration capped at subagentSyncTimeoutMax.  `req` is the decoded
"timeout" argument in whole seconds (none when absent). -/
def spawnLevelTimeout (req : Option Int) : Int :=
  match req with
  | some t =>
    if 0 < t then
      (if t * second > subagentSyncTimeoutMax then subagentSyncTimeoutMax else t * second)
    else spawnDefaultTimeout
  | none => spawnDefaultTimeout

/-- The requested timeout the spawn goroutine passes to RunSubagentLoop
(subagent.go line 345): the literal 0, "use default for nested calls". -/
def spawnChildTimeoutArg : Int := 0

/-- The child loop's effective deadline under spawn: its own WithTimeout (with
requested value spawnChildTimeoutArg) nested inside the background context, hence
the minimum of the two durations. -/
def spawnChildDeadline (req : Option Int) : Int :=
  min (spawnLevelTimeout req) (effectiveSyncTimeout spawnChildTimeoutArg)

/-- A dispatcher whose recorded output is "42" for every call (a mocked tool). -/
def stubDispatch : Dispatch := fun _ _ => .ok "42"

/-- An oracle that immediately returns a final answer on every call. -/
def qaOracle : Oracle := fun _ => .ok { content := "ok", toolCalls := [] }

/-- An oracle that requests one tool call, then returns a final answer. -/
def oneToolOracle : Oracle := fun i =>
  if i = 0 then .ok { content := "", toolCalls := [⟨"call-1", "echo", "\x7b\x7d"⟩] }
  else .ok { content := "done", toolCalls := [] }

/-- An oracle that always requests a tool call and always produces the partial
content "partial work". -/
def busyOracle : Oracle := fun _ =>
  .ok { content := "partial work", toolCalls := [⟨"call-1", "echo", "\x7b\x7d"⟩] }

/-- A simple question-and-answer turn for the multi-turn counterexample run. -/
def demoQATurn : TurnSpec := { promptNow := "P", userText := "hi", oracle := qaOracle }

/-- A single-tool-round-trip turn for the multi-turn counterexample run. -/
def demoToolTurn : TurnSpec := { promptNow := "P", userText := "do", oracle := oneToolOracle }

/-- Sixteen consecutive user turns: six plain turns, one tool turn, nine plain
turns.  Transcript lengths at turn start are 1,3,5,7,9,11,13,17,19,...,33 and so
never satisfy the line-357 trigger. -/
def demoSchedule : List TurnSpec :=
  List.replicate 6 demoQATurn ++ demoToolTurn :: List.replicate 9 demoQATurn

/-- A 52-message transcript used to exercise trimSession past the cap. -/
def demoLongSession : List Message :=
  mkSystem "S" :: List.replicate 51 (mkUser "x")

/-- A mocked JSON decoder for witnesses: accepts only the empty object. -/
def demoDecode : String → Except String ArgMap := fun s =>
  if s = "\x7b\x7d" then .ok [] else .error "invalid character"

/-- A one-tool registry for dispatch witnesses. -/
def demoEchoTool : MTool := { name := "echo", exec := stubExec }

/-- A dispatcher whose every call fails, for the error-recovery witnesses. -/
def demoFailDispatch : Dispatch := fun _ _ => .error "boom"

/-- A parent tool list holding both delegation tools, one workspace-scoped tool
and one plain tool, for the child-tool-set witnesses. -/
def demoParentTools : List MTool :=
  [ { name := "subagent", exec := stubExec },
    { name := "spawn", exec := stubExec },
    { name := "read_file", root := some ["root", "work"], exec := stubExec },
    demoEchoTool ]

/-- A 15-message transcript: the line-357 refresh trigger holds at the start of
the next user turn. -/
def demoSession15 : List Message :=
  mkSystem "S" :: List.replicate 14 (mkUser "x")

theorem head?_append_left {α : Type} (l r : List α) (h : l ≠ []) :
    (l ++ r).head? = l.head? := by
  cases l with
  | nil => exact absurd rfl h
  | cons a t => rfl

theorem trimSession_head? (msgs : List Message) :
    (trimSession msgs).head? = msgs.head? := by
  unfold trimSession
  split
  · rfl
  · rename_i h
    cases msgs with
    | nil => simp at h
    | cons m t => simp

theorem trimSession_length_le (msgs : List Message) :
    (trimSession msgs).length ≤ maxSessionMessages + 1 := by
  unfold trimSession
  split
  · assumption
  · rename_i h
    push_neg at h
    simp only [List.length_append, List.length_take, List.length_drop]
    omega

theorem agentLoopAux_messages_append (oracle : Oracle) (doTool : Dispatch) :
    ∀ (fuel i : Nat) (msgs : List Message) (lastContent : String),
      ∃ rest, (agentLoopAux oracle doTool fuel i msgs lastContent).messages = msgs ++ rest := by
  intro fuel
  induction fuel with
  | zero => intro i msgs lc; exact ⟨[], by simp [agentLoopAux]⟩
  | succ f ih =>
    intro i msgs lc
    simp only [agentLoopAux]
    cases h : oracle i with
    | error e => exact ⟨[], by simp⟩
    | ok r =>
      dsimp only
      by_cases htc : r.toolCalls = []
      · simp [htc]
      · rw [if_neg htc]
        obtain ⟨rest, hrest⟩ := ih (i + 1)
          (msgs ++ mkAssistantCalls r.content r.toolCalls :: toolResultMsgs doTool r.toolCalls)
          r.content
        exact ⟨mkAssistantCalls r.content r.toolCalls :: toolResultMsgs doTool r.toolCalls ++ rest,
          by rw [hrest, List.append_assoc]⟩

theorem processTurn_headRoleSystem (oracle : Oracle) (doTool : Dispatch)
    (p u : String) (msgs : List Message) (h : headRoleSystem msgs) :
    headRoleSystem (processTurn oracle doTool p u msgs).messages := by
  have hne : msgs ≠ [] := by
    intro hnil; rw [hnil] at h; simp [headRoleSystem] at h
  have hr : headRoleSystem (refreshSystemPrompt p msgs) := by
    unfold refreshSystemPrompt
    split
    · cases msgs with
      | nil => exact absurd rfl hne
      | cons m t => simp [headRoleSystem, mkSystem]
    · exact h
  have hrne : refreshSystemPrompt p msgs ≠ [] := by
    intro hnil; rw [hnil] at hr; simp [headRoleSystem] at hr
  have h2 : headRoleSystem (refreshSystemPrompt p msgs ++ [mkUser u]) := by
    unfold headRoleSystem at hr ⊢
    rw [head?_append_left _ _ hrne]; exact hr
  have h3 : headRoleSystem (trimSession (refreshSystemPrompt p msgs ++ [mkUser u])) := by
    unfold headRoleSystem at h2 ⊢
    rw [trimSession_head?]; exact h2
  unfold processTurn agentLoop
  obtain ⟨rest, hrest⟩ := agentLoopAux_messages_append oracle doTool maxIterations 0
    (trimSession (refreshSystemPrompt p msgs ++ [mkUser u])) ""
  unfold headRoleSystem at h3 ⊢
  rw [hrest, head?_append_left]
  · exact h3
  · intro hnil; rw [hnil] at h3; simp at h3

theorem runTurns_headRoleSystem (doTool : Dispatch) :
    ∀ (sched : List TurnSpec) (msgs : List Message), headRoleSystem msgs →
      headRoleSystem (runTurns doTool sched msgs) := by
  intro sched
  induction sched with
  | nil => intro msgs h; simpa [runTurns] using h
  | cons t rest ih =>
    intro msgs h
    simp only [runTurns]
    exact ih _ (processTurn_headRoleSystem t.oracle doTool t.promptNow t.userText msgs h)

/-- C1: for every session the first transcript entry is always the system prompt
(preserved through any number of turns from a fresh session), the transcript
length after a trim never exceeds the cap of maxSessionMessages + 1 = 51, and a
trim on a transcript over the cap keeps position 0 unchanged plus the 50 most
recent messages (a sliding window). -/
theorem claim_c1 :
    (∀ msgs : List Message,
        (trimSession msgs).length ≤ maxSessionMessages + 1 ∧
        (trimSession msgs).head? = msgs.head? ∧
        (maxSessionMessages + 1 < msgs.length →
          trimSession msgs
            = msgs.take 1 ++ msgs.drop (msgs.length - maxSessionMessages))) ∧
    maxSessionMessages + 1 = 51 ∧
    (∀ (doTool : Dispatch) (sched : List TurnSpec) (p : String),
        headRoleSystem (runTurns doTool sched (freshSession p))) := by
  refine ⟨fun msgs => ⟨trimSession_length_le msgs, trimSession_head? msgs, ?_⟩, rfl, ?_⟩
  · intro h
    unfold trimSession
    rw [if_neg (by omega)]
  · intro doTool sched p
    apply runTurns_headRoleSystem
    simp [headRoleSystem, freshSession, mkSystem]

theorem claim_c1_witness :
    (trimSession demoLongSession).length ≤ maxSessionMessages + 1 ∧
    maxSessionMessages + 1 < demoLongSession.length ∧
    trimSession demoLongSession
      = demoLongSession.take 1
          ++ demoLongSession.drop (demoLongSession.length - maxSessionMessages) ∧
    headRoleSystem (runTurns stubDispatch demoSchedule (freshSession "S")) :=
  ⟨(claim_c1.1 demoLongSession).1,
   by decide,
   (claim_c1.1 demoLongSession).2.2 (by decide),
   claim_c1.2.2 stubDispatch demoSchedule "S"⟩

/-- C2: in every oracle turn that requests k ≥ 1 tool calls, both loops append the
assistant message plus exactly k tool-result messages (one per request, in
request order, each correlated by ToolCallID = the request's id) before making
the next oracle call. -/
theorem claim_c2 :
    (∀ (doTool : Dispatch) (tcs : List ToolCall),
        (toolResultMsgs doTool tcs).length = tcs.length ∧
        (∀ i, (h : i < tcs.length) →
          ∃ req res, tcs[i]? = some req ∧ (toolResultMsgs doTool tcs)[i]? = some res ∧
            res.toolCallID = req.id ∧ res.role = "tool" ∧ res.name = req.name)) ∧
    (∀ (oracle : Oracle) (doTool : Dispatch) (fuel i : Nat) (msgs : List Message)
        (lc : String) (r : ChatResult), oracle i = .ok r → r.toolCalls ≠ [] →
      agentLoopAux oracle doTool (fuel + 1) i msgs lc
        = agentLoopAux oracle doTool fuel (i + 1)
            (msgs ++ mkAssistantCalls r.content r.toolCalls :: toolResultMsgs doTool r.toolCalls)
            r.content) ∧
    (∀ (oracle : Oracle) (doTool : Dispatch) (fuel i : Nat) (msgs : List Message)
        (r : ChatResult), oracle i = .ok r → r.toolCalls ≠ [] →
      subagentLoopAux oracle doTool (fuel + 1) i msgs
        = subagentLoopAux oracle doTool fuel (i + 1)
            (msgs ++ mkAssistantCalls r.content r.toolCalls :: toolResultMsgs doTool r.toolCalls)) := by
  refine ⟨fun doTool tcs => ⟨by simp [toolResultMsgs], ?_⟩, ?_, ?_⟩
  · intro i hi
    refine ⟨tcs[i], toolResultMsg doTool tcs[i], List.getElem?_eq_getElem hi, ?_, rfl, rfl, rfl⟩
    simp [toolResultMsgs, List.getElem?_eq_getElem hi]
  · intro oracle doTool fuel i msgs lc r hor htc
    simp only [agentLoopAux]
    rw [hor]
    dsimp only
    rw [if_neg htc]
  · intro oracle doTool fuel i msgs r hor htc
    simp only [subagentLoopAux]
    rw [hor]
    dsimp only
    rw [if_neg htc]

theorem claim_c2_witness :
    ∃ req res, [ToolCall.mk "call-1" "echo" "\x7b\x7d"][0]? = some req ∧
      (toolResultMsgs stubDispatch [ToolCall.mk "call-1" "echo" "\x7b\x7d"])[0]? = some res ∧
      res.toolCallID = req.id ∧ res.role = "tool" ∧ res.name = req.name :=
  (claim_c2.1 stubDispatch [ToolCall.mk "call-1" "echo" "\x7b\x7d"]).2 0 (by decide)

/-- C9: the loop mechanics are deterministic — replaying the same oracle decision
sequence with the same recorded tool outputs against two fresh sessions built
from the same system prompt yields identical run results, in particular identical
final transcripts. -/
theorem claim_c9 (oracle : Oracle) (doTool : Dispatch) (p u : String)
    (s1 s2 : List Message) (h1 : s1 = freshSession p) (h2 : s2 = freshSession p) :
    processTurn oracle doTool p u s1 = processTurn oracle doTool p u s2 ∧
    (processTurn oracle doTool p u s1).messages
      = (processTurn oracle doTool p u s2).messages := by
  subst h1; subst h2; exact ⟨rfl, rfl⟩

theorem claim_c9_witness :
    processTurn qaOracle stubDispatch "P" "hi" (freshSession "P")
      = processTurn qaOracle stubDispatch "P" "hi" (freshSession "P") ∧
    (processTurn qaOracle stubDispatch "P" "hi" (freshSession "P")).messages
      = (processTurn qaOracle stubDispatch "P" "hi" (freshSession "P")).messages :=
  claim_c9 qaOracle stubDispatch "P" "hi" _ _ rfl rfl

theorem limitReachedReply_ne_empty (c : String) : limitReachedReply c ≠ "" := by
  unfold limitReachedReply
  split
  · decide
  · assumption

theorem agentLoopAux_alwaysTools (oracle : Oracle) (doTool : Dispatch)
    (h : alwaysTools oracle) :
    ∀ (fuel i : Nat) (msgs : List Message) (lc : String), 1 ≤ fuel →
      (agentLoopAux oracle doTool fuel i msgs lc).oracleCalls = i + fuel ∧
      (agentLoopAux oracle doTool fuel i msgs lc).ok = true ∧
      ∃ r, oracle (i + fuel - 1) = .ok r ∧
        (agentLoopAux oracle doTool fuel i msgs lc).reply = limitReachedReply r.content := by
  intro fuel
  induction fuel with
  | zero => intro i msgs lc hf; omega
  | succ f ih =>
    intro i msgs lc _
    obtain ⟨r, hor, htc⟩ := h i
    simp only [agentLoopAux]
    rw [hor]
    dsimp only
    rw [if_neg htc]
    rcases Nat.eq_zero_or_pos f with hf0 | hfpos
    · subst hf0
      exact ⟨rfl, rfl, r, by simpa using hor, rfl⟩
    · obtain ⟨hcalls, hok, r2, hor2, hreply⟩ := ih (i + 1)
        (msgs ++ mkAssistantCalls r.content r.toolCalls :: toolResultMsgs doTool r.toolCalls)
        r.content hfpos
      refine ⟨by rw [hcalls]; omega, hok, r2, ?_, hreply⟩
      have hidx : i + (f + 1) - 1 = i + 1 + f - 1 := by omega
      rw [hidx]
      exact hor2

theorem subagentLoopAux_alwaysTools (oracle : Oracle) (doTool : Dispatch)
    (h : alwaysTools oracle) :
    ∀ (fuel i : Nat) (msgs : List Message),
      (subagentLoopAux oracle doTool fuel i msgs).oracleCalls = i + fuel ∧
      (subagentLoopAux oracle doTool fuel i msgs).result = .ok subagentLimitMsg := by
  intro fuel
  induction fuel with
  | zero => intro i msgs; exact ⟨rfl, rfl⟩
  | succ f ih =>
    intro i msgs
    obtain ⟨r, hor, htc⟩ := h i
    simp only [subagentLoopAux]
    rw [hor]
    dsimp only
    rw [if_neg htc]
    obtain ⟨h1, h2⟩ := ih (i + 1)
      (msgs ++ mkAssistantCalls r.content r.toolCalls :: toolResultMsgs doTool r.toolCalls)
    exact ⟨by rw [h1]; omega, h2⟩

/-- C3 (amended): an oracle that always requests tool calls and never returns a
final answer makes the top-level loop terminate after exactly maxIterations = 24
oracle calls with a non-empty reply that prefers the partial content of the final
call, and makes the subagent loop terminate after exactly
subagentMaxIterations = 20 oracle calls with the fixed non-empty limit message —
the subagent loop, unlike the top-level one, ignores the final call's partial
textual content. -/
theorem claim_c3 (oracle : Oracle) (doTool : Dispatch) (h : alwaysTools oracle) :
    (∀ msgs : List Message,
      (agentLoop oracle doTool msgs).oracleCalls = 24 ∧
      (agentLoop oracle doTool msgs).reply ≠ "" ∧
      ∃ r, oracle 23 = .ok r ∧
        (agentLoop oracle doTool msgs).reply = limitReachedReply r.content) ∧
    (∀ msgs : List Message,
      (subagentLoopAux oracle doTool subagentMaxIterations 0 msgs).oracleCalls = 20 ∧
      (subagentLoopAux oracle doTool subagentMaxIterations 0 msgs).result
        = .ok subagentLimitMsg) ∧
    subagentLimitMsg ≠ "" := by
  refine ⟨fun msgs => ?_, fun msgs => ?_, by decide⟩
  · obtain ⟨hc, hok, r, hor, hr⟩ :=
      agentLoopAux_alwaysTools oracle doTool h maxIterations 0 msgs "" (by decide)
    simp only [agentLoop]
    refine ⟨by rw [hc]; rfl, ?_, r, hor, hr⟩
    rw [hr]
    exact limitReachedReply_ne_empty r.content
  · obtain ⟨h1, h2⟩ := subagentLoopAux_alwaysTools oracle doTool h subagentMaxIterations 0 msgs
    exact ⟨by rw [h1]; rfl, h2⟩

theorem claim_c3_counterexample :
    (subagentLoopAux busyOracle stubDispatch subagentMaxIterations 0
        [mkSystem (subagentSystemPrompt []), mkUser "task"]).result
      = .ok subagentLimitMsg ∧
    "partial work" ≠ "" ∧
    subagentLimitMsg ≠ "partial work" ∧
    busyOracle 19 = .ok { content := "partial work",
                          toolCalls := [⟨"call-1", "echo", "\x7b\x7d"⟩] } := by
  exact ⟨rfl, by decide, by decide, rfl⟩

theorem claim_c3_witness :
    (agentLoop busyOracle stubDispatch (freshSession "S")).oracleCalls = 24 ∧
    (agentLoop busyOracle stubDispatch (freshSession "S")).reply ≠ "" ∧
    (subagentLoopAux busyOracle stubDispatch subagentMaxIterations 0
        (freshSession "S")).oracleCalls = 20 := by
  have halways : alwaysTools busyOracle := by
    intro i
    exact ⟨{ content := "partial work", toolCalls := [⟨"call-1", "echo", "\x7b\x7d"⟩] },
      rfl, by decide⟩
  obtain ⟨h1, h2, _⟩ := (claim_c3 busyOracle stubDispatch halways).1 (freshSession "S")
  obtain ⟨h3, _⟩ := (claim_c3 busyOracle stubDispatch halways).2.1 (freshSession "S")
  exact ⟨h1, h2, h3⟩

theorem agentLoopAux_ctrl_indep (oracle : Oracle) (d1 d2 : Dispatch) :
    ∀ (fuel i : Nat) (msgs1 msgs2 : List Message) (lc : String),
      (agentLoopAux oracle d1 fuel i msgs1 lc).reply
          = (agentLoopAux oracle d2 fuel i msgs2 lc).reply ∧
      (agentLoopAux oracle d1 fuel i msgs1 lc).oracleCalls
          = (agentLoopAux oracle d2 fuel i msgs2 lc).oracleCalls ∧
      (agentLoopAux oracle d1 fuel i msgs1 lc).ok
          = (agentLoopAux oracle d2 fuel i msgs2 lc).ok := by
  intro fuel
  induction fuel with
  | zero => intro i msgs1 msgs2 lc; exact ⟨rfl, rfl, rfl⟩
  | succ f ih =>
    intro i msgs1 msgs2 lc
    simp only [agentLoopAux]
    cases h : oracle i with
    | error e => exact ⟨rfl, rfl, rfl⟩
    | ok r =>
      dsimp only
      by_cases htc : r.toolCalls = []
      · rw [if_pos htc, if_pos htc]
        exact ⟨rfl, rfl, rfl⟩
      · rw [if_neg htc, if_neg htc]
        exact ih (i + 1) _ _ r.content

/-- C5: a tool-call request naming an unknown tool, or one whose argument string
fails JSON decoding, makes dispatch return an error; the loop converts any
dispatch or handler error into the tool-result text "Error: <message>" and keeps
going — its reply, oracle-call count and normal/aborted status do not depend on
the dispatcher at all, so dispatch-time errors never abort the loop. -/
theorem claim_c5 :
    (∀ (decode : String → Except String ArgMap) (tools : List MTool)
        (name argsJSON : String), (∀ t ∈ tools, t.name ≠ name) →
      ExecuteTool decode tools name argsJSON = .error ("unknown tool: " ++ name)) ∧
    (∀ (decode : String → Except String ArgMap) (tools : List MTool)
        (name argsJSON : String) (t : MTool) (e : String),
      tools.find? (fun t => t.name == name) = some t →
      decode (if argsJSON = "" then "\x7b\x7d" else argsJSON) = .error e →
      ExecuteTool decode tools name argsJSON = .error ("parse tool args: " ++ e)) ∧
    (∀ (doTool : Dispatch) (tc : ToolCall) (e : String),
      doTool tc.name tc.arguments = .error e →
      (toolResultMsg doTool tc).content = "Error: " ++ e ∧
      (toolResultMsg doTool tc).role = "tool" ∧
      (toolResultMsg doTool tc).toolCallID = tc.id) ∧
    (∀ (oracle : Oracle) (d1 d2 : Dispatch) (msgs1 msgs2 : List Message),
      (agentLoop oracle d1 msgs1).reply = (agentLoop oracle d2 msgs2).reply ∧
      (agentLoop oracle d1 msgs1).oracleCalls = (agentLoop oracle d2 msgs2).oracleCalls ∧
      (agentLoop oracle d1 msgs1).ok = (agentLoop oracle d2 msgs2).ok) := by
  refine ⟨?_, ?_, ?_, ?_⟩
  · intro decode tools name argsJSON hn
    have hfind : tools.find? (fun t => t.name == name) = none := by
      rw [List.find?_eq_none]
      intro t ht
      simpa using hn t ht
    unfold ExecuteTool
    rw [hfind]
  · intro decode tools name argsJSON t e hfind hdec
    unfold ExecuteTool
    rw [hfind]
    dsimp only
    rw [hdec]
  · intro doTool tc e hd
    unfold toolResultMsg
    rw [hd]
    exact ⟨rfl, rfl, rfl⟩
  · intro oracle d1 d2 msgs1 msgs2
    exact agentLoopAux_ctrl_indep oracle d1 d2 maxIterations 0 msgs1 msgs2 ""

theorem claim_c5_witness :
    ExecuteTool demoDecode [demoEchoTool] "nope" "" = .error ("unknown tool: " ++ "nope") ∧
    ExecuteTool demoDecode [demoEchoTool] "echo" "bad json"
      = .error ("parse tool args: " ++ "invalid character") ∧
    (toolResultMsg demoFailDispatch ⟨"call-1", "echo", "\x7b\x7d"⟩).content
      = "Error: " ++ "boom" ∧
    (agentLoop oneToolOracle stubDispatch (freshSession "S")).reply
      = (agentLoop oneToolOracle demoFailDispatch (freshSession "S")).reply := by
  refine ⟨?_, ?_, ?_, ?_⟩
  · refine claim_c5.1 demoDecode [demoEchoTool] "nope" "" ?_
    intro t ht
    rcases List.mem_singleton.mp ht with rfl
    decide
  · exact claim_c5.2.1 demoDecode [demoEchoTool] "echo" "bad json" demoEchoTool
      "invalid character" rfl rfl
  · exact (claim_c5.2.2.1 demoFailDispatch ⟨"call-1", "echo", "\x7b\x7d"⟩ "boom" rfl).1
  · exact (claim_c5.2.2.2 oneToolOracle stubDispatch demoFailDispatch
      (freshSession "S") (freshSession "S")).1

/-- C7: the timeout applied to a synchronous subagent delegation is always
strictly positive and never exceeds the 10-minute maximum: a non-positive request
gets the 3-minute default, a request over the maximum is clamped to it, and any
other request is applied as given. -/
theorem claim_c7 (t : Int) :
    0 < effectiveSyncTimeout t ∧
    effectiveSyncTimeout t ≤ subagentSyncTimeoutMax ∧
    (t ≤ 0 → effectiveSyncTimeout t = subagentSyncTimeoutDefault) ∧
    (subagentSyncTimeoutMax < t → effectiveSyncTimeout t = subagentSyncTimeoutMax) ∧
    (0 < t → t ≤ subagentSyncTimeoutMax → effectiveSyncTimeout t = t) := by
  simp only [effectiveSyncTimeout, subagentSyncTimeoutDefault, subagentSyncTimeoutMax,
    minute, second]
  split_ifs <;> omega

theorem claim_c7_witness :
    0 < effectiveSyncTimeout 0 ∧
    effectiveSyncTimeout 0 = subagentSyncTimeoutDefault ∧
    effectiveSyncTimeout (11 * minute) = subagentSyncTimeoutMax ∧
    effectiveSyncTimeout (2 * minute) = 2 * minute :=
  ⟨(claim_c7 0).1,
   (claim_c7 0).2.2.1 (by decide),
   (claim_c7 (11 * minute)).2.2.2.1 (by norm_num [minute, second, subagentSyncTimeoutMax]),
   (claim_c7 (2 * minute)).2.2.2.2 (by norm_num [minute, second])
     (by norm_num [minute, second, subagentSyncTimeoutMax])⟩

theorem dropCommon_fst_nil (a : List String) :
    ∀ b : List String, (dropCommon a b).1 = [] ↔ a.isPrefixOf b = true := by
  induction a with
  | nil => intro b; cases b <;> simp [dropCommon, List.isPrefixOf]
  | cons x xs ih =>
    intro b
    cases b with
    | nil => simp [dropCommon, List.isPrefixOf]
    | cons y ys =>
      simp only [dropCommon, List.isPrefixOf, Bool.and_eq_true, beq_iff_eq]
      by_cases hxy : x = y
      · rw [if_pos hxy]
        simp [hxy, ih ys]
      · rw [if_neg hxy]
        simp [hxy]

theorem relEscapes_of_fst_ne_nil (base targ : List String)
    (h : (dropCommon base targ).1 ≠ []) : relEscapes base targ = true := by
  unfold relEscapes
  simp only [relSegments]
  cases hd : (dropCommon base targ).1 with
  | nil => exact absurd hd h
  | cons s rest =>
    simp only [List.length_cons, List.replicate_succ, List.cons_append]
    rfl

theorem relEscapes_false_fst_nil (base targ : List String)
    (h : ¬ relEscapes base targ = true) : (dropCommon base targ).1 = [] := by
  by_contra h0
  exact h (relEscapes_of_fst_ne_nil base targ h0)

theorem resolveSubWorkspace_reject (mainWs sub : List String) (hm : mainWs ≠ [])
    (h : ¬ mainWs.isPrefixOf (cleanAbs (mainWs ++ sub)) = true) :
    resolveSubWorkspace mainWs sub
      = .error ("workspace \"" ++ String.intercalate "/" sub
          ++ "\" is outside main workspace") := by
  have hesc : relEscapes mainWs (cleanAbs (mainWs ++ sub)) = true := by
    apply relEscapes_of_fst_ne_nil
    intro h0
    exact h ((dropCommon_fst_nil mainWs (cleanAbs (mainWs ++ sub))).mp h0)
  unfold resolveSubWorkspace
  rw [if_neg hm, if_pos hesc]

theorem resolveSubWorkspace_ok (mainWs sub p : List String)
    (h : resolveSubWorkspace mainWs sub = .ok p) :
    p = cleanAbs (mainWs ++ sub) ∧ mainWs.isPrefixOf p = true := by
  unfold resolveSubWorkspace at h
  by_cases hm : mainWs = []
  · rw [if_pos hm] at h
    exact absurd h (by simp)
  · rw [if_neg hm] at h
    by_cases hesc : relEscapes mainWs (cleanAbs (mainWs ++ sub)) = true
    · rw [if_pos hesc] at h
      exact absurd h (by simp)
    · rw [if_neg hesc] at h
      have hp : p = cleanAbs (mainWs ++ sub) := by
        cases h
        rfl
      refine ⟨hp, ?_⟩
      rw [hp]
      exact (dropCommon_fst_nil mainWs (cleanAbs (mainWs ++ sub))).mp
        (relEscapes_false_fst_nil mainWs (cleanAbs (mainWs ++ sub)) hesc)

/-- C4 (amended): a requested sub-workspace whose cleaned join with the workspace
root resolves outside the root is rejected by resolveSubWorkspace, and the
delegation then fails before any child tool set is built and before any child
loop runs; every accepted request returns the resolved absolute sub-path, which
lies inside the root.  Acceptance is however conservative, not complete: the
check is a textual "starts with ..\x22 test on the relative path, which also
rejects an inside path whose first remaining component merely begins with ".."
(see the counterexample). -/
theorem claim_c4 :
    (∀ (oracle : Oracle) (decode : String → Except String ArgMap) (tools : List MTool)
        (task : String) (mainWs ws : List String), mainWs ≠ [] → ws ≠ [] →
      ¬ mainWs.isPrefixOf (cleanAbs (mainWs ++ ws)) = true →
      resolveSubWorkspace mainWs ws
          = .error ("workspace \"" ++ String.intercalate "/" ws
              ++ "\" is outside main workspace") ∧
      runSubagentLoop oracle decode tools task mainWs ws
          = .error ("workspace \"" ++ String.intercalate "/" ws
              ++ "\" is outside main workspace")) ∧
    (∀ mainWs ws p : List String, resolveSubWorkspace mainWs ws = .ok p →
      p = cleanAbs (mainWs ++ ws) ∧ mainWs.isPrefixOf p = true) := by
  refine ⟨?_, resolveSubWorkspace_ok⟩
  intro oracle decode tools task mainWs ws hm hw h
  have hres := resolveSubWorkspace_reject mainWs ws hm h
  refine ⟨hres, ?_⟩
  unfold runSubagentLoop childTools
  rw [if_pos ⟨hw, hm⟩, hres]

theorem claim_c4_counterexample :
    (["w"] : List String).isPrefixOf (cleanAbs (["w"] ++ ["..foo"])) = true ∧
    resolveSubWorkspace ["w"] ["..foo"]
      = .error ("workspace \"..foo\" is outside main workspace") :=
  ⟨rfl, rfl⟩

theorem claim_c4_witness :
    resolveSubWorkspace ["root", "work"] ["..", "..", "etc"]
        = .error ("workspace \"" ++ String.intercalate "/" ["..", "..", "etc"]
            ++ "\" is outside main workspace") ∧
    runSubagentLoop qaOracle demoDecode demoParentTools "task" ["root", "work"]
        ["..", "..", "etc"]
        = .error ("workspace \"" ++ String.intercalate "/" ["..", "..", "etc"]
            ++ "\" is outside main workspace") ∧
    (["root", "work"] : List String).isPrefixOf (cleanAbs (["root", "work"] ++ ["sub"]))
        = true := by
  obtain ⟨h1, h2⟩ := claim_c4.1 qaOracle demoDecode demoParentTools "task"
    ["root", "work"] ["..", "..", "etc"] (by decide) (by decide) (by decide)
  exact ⟨h1, h2, (claim_c4.2 ["root", "work"] ["sub"] (cleanAbs (["root", "work"] ++ ["sub"]))
    rfl).2⟩

theorem workspaceToolNames_eq (n : String) :
    workspaceToolNames n = true ↔
      n = "read_file" ∨ n = "write_file" ∨ n = "edit_file" ∨ n = "list_files"
        ∨ n = "shell" := by
  simp [workspaceToolNames, Bool.or_eq_true, beq_iff_eq, or_assoc]

theorem buildWorkspaceSubTools_eq (ws : List String) :
    buildWorkspaceSubTools ws =
      [ { name := "read_file", root := some ws, exec := stubExec },
        { name := "write_file", root := some ws, exec := stubExec },
        { name := "edit_file", root := some ws, exec := stubExec },
        { name := "list_files", root := some ws, exec := stubExec },
        { name := "shell", root := some ws, exec := stubExec } ] := rfl

theorem mem_buildWorkspaceSubTools (ws : List String) (t : MTool)
    (ht : t ∈ buildWorkspaceSubTools ws) :
    t.root = some ws ∧ t.name ≠ "spawn" ∧ t.name ≠ "subagent"
      ∧ workspaceToolNames t.name = true := by
  rw [buildWorkspaceSubTools_eq] at ht
  simp only [List.mem_cons, List.not_mem_nil, or_false] at ht
  rcases ht with rfl | rfl | rfl | rfl | rfl <;>
    exact ⟨rfl, by simp, by simp, rfl⟩

theorem mem_filter_subcase (tools : List MTool) (t : MTool)
    (ht : t ∈ tools.filter (fun t =>
      !(t.name == "spawn" || t.name == "subagent") && !workspaceToolNames t.name)) :
    t.name ≠ "spawn" ∧ t.name ≠ "subagent" ∧ workspaceToolNames t.name = false := by
  have hpred := (List.mem_filter.mp ht).2
  simp only [Bool.and_eq_true, Bool.not_eq_true', Bool.or_eq_false_iff,
    beq_eq_false_iff_ne] at hpred
  exact ⟨hpred.1.1, hpred.1.2, hpred.2⟩

theorem mem_filter_plaincase (tools : List MTool) (t : MTool)
    (ht : t ∈ tools.filter (fun t => t.name != "spawn" && t.name != "subagent")) :
    t.name ≠ "spawn" ∧ t.name ≠ "subagent" := by
  have hpred := (List.mem_filter.mp ht).2
  simpa only [Bool.and_eq_true, bne_iff_ne] using hpred

theorem buildWorkspaceSubTools_covers (ws : List String) (n : String)
    (hn : workspaceToolNames n = true) :
    ∃ t ∈ buildWorkspaceSubTools ws, t.name = n ∧ t.root = some ws := by
  rw [buildWorkspaceSubTools_eq]
  rcases (workspaceToolNames_eq n).mp hn with rfl | rfl | rfl | rfl | rfl
  · exact ⟨_, List.mem_cons_self _ _, rfl, rfl⟩
  · exact ⟨_, List.mem_cons_of_mem _ (List.mem_cons_self _ _), rfl, rfl⟩
  · exact ⟨_, List.mem_cons_of_mem _ (List.mem_cons_of_mem _ (List.mem_cons_self _ _)),
      rfl, rfl⟩
  · exact ⟨_, List.mem_cons_of_mem _ (List.mem_cons_of_mem _
      (List.mem_cons_of_mem _ (List.mem_cons_self _ _))), rfl, rfl⟩
  · exact ⟨_, List.mem_cons_of_mem _ (List.mem_cons_of_mem _ (List.mem_cons_of_mem _
      (List.mem_cons_of_mem _ (List.mem_cons_self _ _)))), rfl, rfl⟩

/-- C6: whatever tool list the parent holds, the child tool set given to a
delegated loop never contains a tool named "spawn" or "subagent", in both the
plain case and the sub-workspace case; and in the sub-workspace case every
workspace-scoped tool in the child set is rooted at the validated sub-path, with
all five workspace tool names present. -/
theorem claim_c6 :
    ∀ (tools : List MTool) (mainWs ws : List String) (ts : List MTool),
      childTools tools mainWs ws = .ok ts →
      (∀ t ∈ ts, t.name ≠ "spawn" ∧ t.name ≠ "subagent") ∧
      (∀ subWs : List String, ws ≠ [] → mainWs ≠ [] →
        resolveSubWorkspace mainWs ws = .ok subWs →
        (∀ t ∈ ts, workspaceToolNames t.name = true → t.root = some subWs) ∧
        (∀ n, workspaceToolNames n = true →
          ∃ t ∈ ts, t.name = n ∧ t.root = some subWs)) := by
  intro tools mainWs ws ts h
  unfold childTools at h
  by_cases hc : ws ≠ [] ∧ mainWs ≠ []
  · rw [if_pos hc] at h
    cases hres : resolveSubWorkspace mainWs ws with
    | error e => rw [hres] at h; exact absurd h (by simp)
    | ok subWs0 =>
      rw [hres] at h
      dsimp only at h
      injection h with hts
      subst hts
      constructor
      · intro t ht
        rcases List.mem_append.mp ht with hf | hw
        · exact ⟨(mem_filter_subcase tools t hf).1, (mem_filter_subcase tools t hf).2.1⟩
        · exact ⟨(mem_buildWorkspaceSubTools subWs0 t hw).2.1,
            (mem_buildWorkspaceSubTools subWs0 t hw).2.2.1⟩
      · intro subWs _ _ hres2
        injection hres2 with hsub
        subst hsub
        constructor
        · intro t ht hwsn
          rcases List.mem_append.mp ht with hf | hw
          · rw [(mem_filter_subcase tools t hf).2.2] at hwsn
            exact absurd hwsn (by simp)
          · exact (mem_buildWorkspaceSubTools subWs0 t hw).1
        · intro n hn
          obtain ⟨t, htm, htn, htr⟩ := buildWorkspaceSubTools_covers subWs0 n hn
          exact ⟨t, List.mem_append_right _ htm, htn, htr⟩
  · rw [if_neg hc] at h
    injection h with hts
    subst hts
    constructor
    · intro t ht
      exact mem_filter_plaincase tools t ht
    · intro subWs hws hmw _
      exact absurd ⟨hws, hmw⟩ hc

theorem claim_c6_witness :
    (∀ t ∈ demoEchoTool :: buildWorkspaceSubTools ["root", "work", "sub"],
        t.name ≠ "spawn" ∧ t.name ≠ "subagent") ∧
    (∃ t ∈ demoEchoTool :: buildWorkspaceSubTools ["root", "work", "sub"],
        t.name = "read_file" ∧ t.root = some ["root", "work", "sub"]) := by
  have h := claim_c6 demoParentTools ["root", "work"] ["sub"]
    (demoEchoTool :: buildWorkspaceSubTools ["root", "work", "sub"]) rfl
  refine ⟨h.1, ?_⟩
  exact (h.2 ["root", "work", "sub"] (by decide) (by decide) rfl).2 "read_file" (by decide)

/-- C8 (amended): the system prompt at position 0 is built at session creation;
thereafter a refresh happens at the start of a user turn exactly when the
transcript holds more than one message and its length is divisible by 15 — a
message-count cadence, not one tied to the number of user turns — and each
refresh replaces position 0 in place, preserving the transcript length and every
other entry (the transcript is otherwise append-only). -/
theorem claim_c8 (p : String) (msgs : List Message) :
    (refreshSystemPrompt p msgs).length = msgs.length ∧
    (∀ i, i ≠ 0 → (refreshSystemPrompt p msgs)[i]? = msgs[i]?) ∧
    (refreshDue msgs = true → refreshSystemPrompt p msgs = msgs.set 0 (mkSystem p)) ∧
    (refreshDue msgs = false → refreshSystemPrompt p msgs = msgs) ∧
    (refreshDue msgs = true ↔ 1 < msgs.length ∧ msgs.length % 15 = 0) ∧
    freshSession p = [mkSystem p] := by
  refine ⟨?_, ?_, ?_, ?_, ?_, rfl⟩
  · unfold refreshSystemPrompt
    split
    · exact List.length_set msgs 0 _
    · rfl
  · intro i hi
    unfold refreshSystemPrompt
    split
    · exact List.getElem?_set_ne (fun h => hi h.symm)
    · rfl
  · intro h
    unfold refreshSystemPrompt
    rw [if_pos h]
  · intro h
    unfold refreshSystemPrompt
    rw [if_neg (by simp [h])]
  · simp [refreshDue]

theorem claim_c8_counterexample :
    countRefreshes stubDispatch demoSchedule (freshSession "S0") = 0 ∧
    demoSchedule.length = 16 :=
  ⟨rfl, rfl⟩

theorem claim_c8_witness :
    refreshDue demoSession15 = true ∧
    refreshSystemPrompt "N" demoSession15 = demoSession15.set 0 (mkSystem "N") ∧
    (refreshSystemPrompt "N" demoSession15).length = demoSession15.length ∧
    (refreshSystemPrompt "N" demoSession15)[3]? = demoSession15[3]? :=
  ⟨by decide,
   (claim_c8 "N" demoSession15).2.2.1 (by decide),
   (claim_c8 "N" demoSession15).1,
   (claim_c8 "N" demoSession15).2.1 3 (by decide)⟩

/-- C10: the spawn goroutine passes a requested timeout of 0 to the child loop,
which therefore applies its own 3-minute synchronous default inside the spawn
background context; the child's effective deadline is the minimum of the
spawn-level timeout (the clamped requested seconds, or the 5-minute default) and
3 minutes, and thus never exceeds 3 minutes. -/
theorem claim_c10 (req : Option Int) :
    effectiveSyncTimeout spawnChildTimeoutArg = subagentSyncTimeoutDefault ∧
    spawnChildDeadline req = min (spawnLevelTimeout req) subagentSyncTimeoutDefault ∧
    spawnChildDeadline req ≤ subagentSyncTimeoutDefault ∧
    subagentSyncTimeoutDefault = 3 * minute ∧
    (req = none → spawnLevelTimeout req = spawnDefaultTimeout) ∧
    spawnDefaultTimeout = 5 * minute ∧
    (∀ t : Int, req = some t → 0 < t →
      spawnLevelTimeout req ≤ subagentSyncTimeoutMax) := by
  have h0 : effectiveSyncTimeout spawnChildTimeoutArg = subagentSyncTimeoutDefault := by
    decide
  refine ⟨h0, ?_, ?_, rfl, fun h => by rw [h]; rfl, rfl, ?_⟩
  · unfold spawnChildDeadline
    rw [h0]
  · unfold spawnChildDeadline
    rw [h0]
    exact min_le_right _ _
  · intro t h hpos
    subst h
    simp only [spawnLevelTimeout]
    rw [if_pos hpos]
    split_ifs with hclamp
    · exact le_refl _
    · simp only [subagentSyncTimeoutMax, minute, second] at hclamp ⊢
      omega

theorem claim_c10_witness :
    effectiveSyncTimeout spawnChildTimeoutArg = subagentSyncTimeoutDefault ∧
    spawnLevelTimeout none = spawnDefaultTimeout ∧
    spawnChildDeadline (some 60) ≤ subagentSyncTimeoutDefault ∧
    spawnLevelTimeout (some 60) ≤ subagentSyncTimeoutMax :=
  ⟨(claim_c10 none).1,
   (claim_c10 none).2.2.2.2.1 rfl,
   (claim_c10 (some 60)).2.2.1,
   (claim_c10 (some 60)).2.2.2.2.2.2 60 rfl (by decide)⟩

end PicoFlare
